import Mathlib

/-!
# Verification of the audio relay / file-streaming engine

A shallow embedding of `src/services/audio_stream.py` (repository
`khan2a/agent-conversation`).  Pure parts of the Python code become Lean
functions; the effectful parts (filesystem probes, the ffmpeg subprocess,
the WebSocket send loop) become explicit-state functions over an
environment describing the outside world, producing a trace of observable
events.  All definitions are executable.
-/

namespace AudioStream

/-! ## Basic string machinery

Python string operations used by the module, modelled over `List Char`
(`String.data`).  These mirror `str.lower`, `str.replace('.mp3','')`,
the `in` substring test, `str.split('/')` (as performed by
`pathlib.PurePath` construction) and `pathlib.PurePath.suffix`.
-/

/-- `pat in s` for lists of characters: some rotation of `s` starts with `pat`.
Mirrors Python's substring containment test. -/
def listContains (pat : List Char) : List Char → Bool
  | [] => pat.isEmpty
  | c :: rest => pat.isPrefixOf (c :: rest) || listContains pat rest

/-- Python's `pat in s` substring test. -/
def strContains (s pat : String) : Bool :=
  listContains pat.data s.data

/-- ASCII lower-casing of a string, as `str.lower` behaves on the ASCII
file names the module deals with. -/
def strLower (s : String) : String :=
  ⟨s.data.map Char.toLower⟩

/-- Remove every (left-to-right, non-overlapping) occurrence of `".mp3"`,
as `filename.replace('.mp3', '')` does. -/
def removeMp3 : List Char → List Char
  | [] => []
  | '.' :: 'm' :: 'p' :: '3' :: rest => removeMp3 rest
  | c :: rest => c :: removeMp3 rest

/-- Split a character list at `'/'` separators (the way `pathlib`
decomposes a path string into components). -/
def splitSlash : List Char → List (List Char)
  | [] => [[]]
  | '/' :: rest => [] :: splitSlash rest
  | c :: rest =>
    match splitSlash rest with
    | [] => [[c]]
    | g :: gs => (c :: g) :: gs

/-- Index (from the front) of the last occurrence of `c`, if any. -/
def lastIdxOf (c : Char) (cs : List Char) : Option Nat :=
  (cs.reverse.findIdx? (fun d => d == c)).map (fun j => cs.length - 1 - j)

/-- `pathlib.PurePath.suffix` of a file name: the final `"."`-extension
(including the dot) when the last dot sits strictly inside the name, `""`
otherwise (CPython: `0 < i < len(name) - 1`). -/
def pathSuffix (name : String) : String :=
  match lastIdxOf '.' name.data with
  | none => ""
  | some i => if 0 < i ∧ i < name.data.length - 1 then ⟨name.data.drop i⟩ else ""

/-! ## Path model

Paths are lists of components.  `parseRel` turns the `{filename}` path
parameter into the components `pathlib` would keep (dropping empty and
`"."` components); `normSegs` performs the `".."`-popping that
`Path.resolve()` applies on a symlink-free filesystem. -/

/-- Components `pathlib` keeps from a relative path string. -/
def parseRel (s : String) : List String :=
  ((splitSlash s.data).filter (fun g => !(g.isEmpty || g == ['.']))).map
    (fun g => (⟨g⟩ : String))

/-- Resolve `".."` components against the leading components
(`Path.resolve()` on a symlink-free tree; at the root, `".."` stays put). -/
def normSegs (segs : List String) : List String :=
  segs.foldl (fun acc s => if s = ".." then acc.dropLast else acc ++ [s]) []

/-- The fixed audio root `Path("audio_files")` of
`handle_audio_file_stream`. -/
def audioDirSegs : List String := ["audio_files"]

/-- Components of `audio_dir / filename`. -/
def filePathSegs (filename : String) : List String :=
  audioDirSegs ++ parseRel filename

/-- Final component of a path (`Path.name`). -/
def baseName (segs : List String) : String :=
  segs.getLast?.getD ""

/-! ## Pacing Calculator (`_calculate_streaming_parameters`)

The Python function receives the requested `filename` and the (possibly
converted) file path; for `.wav` paths it additionally calls
`_analyze_wav_properties`, which reads the container header but **only
logs** what it finds (the recalculation based on the header is commented
out in the source).  To make that observable, the embedding receives the
header-backed properties as an argument; the body mirrors the source and
does not consult them. -/

/-- Header fields `wave.open` would report (`Format Inspector`). -/
structure WavProps where
  nchannels : Nat
  framerate : Nat
  sampwidth : Nat
deriving DecidableEq, Repr

/-- The dictionary returned by `_calculate_streaming_parameters`. -/
structure StreamParams where
  chunk_size : Nat
  sleep_time : ℚ
  sample_rate : Nat
deriving DecidableEq, Repr

/-- `_calculate_streaming_parameters(filename, file_path)`.  `wavProps`
models what `_analyze_wav_properties` reads from a `.wav` header; the
source only logs it, so the result does not depend on it. -/
def calculate_streaming_parameters (filename : String)
    (wavProps : Option WavProps) : StreamParams :=
  -- defaults in the source: sample_rate = 8000, bit_depth = 16,
  -- channels = 1, chunk_duration = 0.02
  let sample_rate : Nat := 8000
  let bit_depth : Nat := 16
  let channels : Nat := 1
  let chunk_duration : ℚ := mkRat 2 100    -- 0.02
  if strContains filename "16000" then
    { chunk_size := 640, sleep_time := mkRat 2 100, sample_rate := 16000 }
  else if strContains filename "8000" then
    { chunk_size := 320, sleep_time := mkRat 2 100, sample_rate := 8000 }
  else
    { chunk_size :=
        ⌊((sample_rate * bit_depth * channels : ℚ) * chunk_duration) / 8⌋.toNat,
      sleep_time := chunk_duration,
      sample_rate := sample_rate }

/-- The Pacing Calculator as §4.2 of the specification words it (for the
refinement comparison of C4): prefer a header-backed `sampleRate` when
available, otherwise the filename hint, otherwise 8000 Hz; then
`chunkSizeBytes = floor(rate·16·1·0.02/8)` and a 20 ms delay floored at
5 ms.  This definition follows the spec text, not the source. -/
def computePacingSpec (filename : String) (props : Option WavProps) :
    StreamParams :=
  let rate : Nat :=
    match props with
    | some p => p.framerate
    | none =>
      if strContains filename "16000" then 16000
      else if strContains filename "8000" then 8000
      else 8000
  { chunk_size := ⌊((rate : ℚ) * 16 * 1 * mkRat 2 100) / 8⌋.toNat,
    sleep_time := max (mkRat 2 100) (mkRat 5 1000),
    sample_rate := rate }

/-! ## Transcoding Pipeline (`_convert_mp3_to_l16`) -/

/-- What the external `ffmpeg` invocation does in a given run: whether it
exceeds the 60 s wall-clock timeout, its exit status otherwise, and the
state of the output file afterwards. -/
structure TranscodeEnv where
  procTimeout : Bool
  exitCode : Int
  outExists : Bool
  outSize : Nat
deriving DecidableEq, Repr

/-- Target sample rate chosen by `_convert_mp3_to_l16`:
`16000 if "16000" in filename else 8000`. -/
def mp3TargetRate (filename : String) : Nat :=
  if strContains filename "16000" then 16000 else 8000

/-- `f"converted_{filename.replace('.mp3', '')}_l16_{sample_rate}.raw"`. -/
def tempBaseName (filename : String) (rate : Nat) : String :=
  ⟨"converted_".data ++ removeMp3 filename.data ++ "_l16_".data
    ++ (toString rate).data ++ ".raw".data⟩

/-- The unique temporary output path `tempfile.gettempdir() / temp_filename`
(the temp directory is modelled as `"tmp"`). -/
def tempPathSegs (filename : String) (rate : Nat) : List String :=
  ["tmp", tempBaseName filename rate]

/-- Result of `_convert_mp3_to_l16`: the returned path (`none` on
failure) and whether `process.kill()` was invoked. -/
structure ConvertRes where
  result : Option (List String)
  killed : Bool
deriving DecidableEq, Repr

/-- `_convert_mp3_to_l16(file_path, filename)` against a run of the
external encoder described by `env`. -/
def convert_mp3_to_l16 (filename : String) (env : TranscodeEnv) : ConvertRes :=
  let rate := mp3TargetRate filename
  if env.procTimeout then
    { result := none, killed := true }          -- asyncio.TimeoutError branch
  else if env.exitCode ≠ 0 then
    { result := none, killed := false }         -- returncode != 0
  else if ¬ env.outExists ∨ env.outSize = 0 then
    { result := none, killed := false }         -- missing or empty output
  else
    { result := some (tempPathSegs filename rate), killed := false }

/-! ## Observable events and validation
(`_validate_and_get_streaming_params`) -/

/-- Observable actions of a streaming session, in program order. -/
inductive Ev
  | stat (p : List String)                  -- `file_path.exists()` / `resolve()`
  | transcodeCall (rate : Nat)              -- spawning the ffmpeg process
  | close (code : Nat) (reason : String)    -- `websocket.close(...)`
  | openFile (p : List String)              -- `aiofiles.open(...)`
  | poll (disc : Bool)                      -- `_check_client_disconnected`
  | read (n : Nat)                          -- `audio_file.read(chunk_size)`
  | send (b : List Nat)                     -- `websocket.send_bytes(chunk)`
  | sendText (s : String)                   -- `websocket.send_text(...)`
  | sleep                                   -- `asyncio.sleep(sleep_time)`
  | unlink (p : List String)                -- `file_path.unlink()`
deriving DecidableEq, Repr

/-- Outcome of `_validate_and_get_streaming_params`. -/
inductive VOut
  | notFound
  | invalidPath
  | unsupported
  | convFailed
  | ok (params : StreamParams) (actualPath : List String)
deriving DecidableEq, Repr

/-- State of the world a session runs against. -/
structure Env where
  cwd : List String                  -- current working directory (resolved)
  fs : List (List String)            -- resolved paths of existing files
  wavProps : Option WavProps         -- what a `.wav` header would report
  tenv : TranscodeEnv                -- behaviour of the ffmpeg invocation
deriving Repr

/-- The allow-list `supported_formats`. -/
def supportedFormats : List String :=
  [".mp3", ".wav", ".ogg", ".m4a", ".flac", ".aac"]

/-- `_validate_and_get_streaming_params(websocket, file_path, audio_dir,
filename)`: outcome together with the trace of observable actions, in the
order the source performs them (existence probe, containment check,
extension check, optional MP3 conversion). -/
def validate_and_get_streaming_params (env : Env) (filename : String) :
    VOut × List Ev :=
  let fileSegs := filePathSegs filename
  let resolvedFile := normSegs (env.cwd ++ fileSegs)
  let resolvedDir := normSegs (env.cwd ++ audioDirSegs)
  if resolvedFile ∉ env.fs then
    (.notFound, [.stat resolvedFile, .close 1003 "File not found"])
  else if ¬ (resolvedDir <+: resolvedFile) then
    (.invalidPath, [.stat resolvedFile, .close 1003 "Invalid file path"])
  else
    let sfx := strLower (pathSuffix (baseName fileSegs))
    if sfx ∉ supportedFormats then
      (.unsupported, [.stat resolvedFile, .close 1003 "Unsupported audio format"])
    else if sfx = ".mp3" then
      match (convert_mp3_to_l16 filename env.tenv).result with
      | none =>
        (.convFailed,
         [.stat resolvedFile, .transcodeCall (mp3TargetRate filename),
          .close 1003 "MP3 conversion failed"])
      | some converted =>
        (.ok (calculate_streaming_parameters filename env.wavProps) converted,
         [.stat resolvedFile, .transcodeCall (mp3TargetRate filename)])
    else
      (.ok (calculate_streaming_parameters filename env.wavProps) fileSegs,
       [.stat resolvedFile])

/-! ## The send loop (`_stream_audio_file`) -/

/-- An inbound WebSocket message as seen by `websocket.receive()`. -/
inductive Msg
  | disconnect
  | bin (b : List Nat)
  | txt (s : String)
  | other
deriving DecidableEq, Repr

/-- `_check_client_disconnected`: the zero-timeout receive either times
out (`none`, returns `False`) or consumes one inbound message, returning
`True` exactly for a disconnect event; anything else is discarded. -/
def pollDisc : Option Msg → Bool
  | some .disconnect => true
  | _ => false

/-- Result of the send loop: its event trace, the chunks actually sent,
and whether an exception escaped the loop (a failed `send_bytes`). -/
structure LoopRes where
  evs : List Ev
  sent : List (List Nat)
  err : Bool
deriving DecidableEq, Repr

/-- The `while True` loop of `_stream_audio_file`.  Each iteration, in
source order: disconnect check — read of up to `cs` bytes (empty read
ends the loop) — binary send — sleep.  `polls` holds what the
per-iteration zero-timeout receive observes (`none` = timeout); `sOk`
holds whether each `send_bytes` call succeeds (`false` = it raises, and
the exception escapes the loop). -/
def streamLoop (cs : Nat) (polls : List (Option Msg)) (sOk : List Bool)
    (data : List Nat) : LoopRes :=
  if pollDisc (polls.headD none) then
    ⟨[.poll true], [], false⟩
  else if h : data.take cs = [] then
    ⟨[.poll false, .read 0], [], false⟩
  else if sOk.headD true then
    let r := streamLoop cs (polls.drop 1) (sOk.drop 1) (data.drop cs)
    ⟨.poll false :: .read (data.take cs).length :: .send (data.take cs)
        :: .sleep :: r.evs,
      data.take cs :: r.sent, r.err⟩
  else
    ⟨[.poll false, .read (data.take cs).length], [], true⟩
termination_by data.length
decreasing_by
  have hne : data ≠ [] ∧ cs ≠ 0 := by
    constructor
    · intro hd; exact h (by simp [hd])
    · intro hc; exact h (by simp [hc])
  simp only [List.length_drop]
  exact Nat.sub_lt (List.length_pos.mpr hne.1) (Nat.pos_of_ne_zero hne.2)

/-- `header_skip` as computed at the top of `_stream_audio_file`:
44 bytes when the (possibly converted) file has a `.wav` suffix, else 0. -/
def headerSkip (pathSegs : List String) : Nat :=
  if strLower (pathSuffix (baseName pathSegs)) = ".wav" then 44 else 0

/-- The cleanup guard at the end of `_stream_audio_file`:
`file_path.suffix.lower() == '.raw' and 'converted_' in file_path.name`. -/
def isTempArtifact (pathSegs : List String) : Bool :=
  (strLower (pathSuffix (baseName pathSegs)) == ".raw")
    && strContains (baseName pathSegs) "converted_"

/-- Result of `_stream_audio_file`. -/
structure StreamRes where
  evs : List Ev
  sent : List (List Nat)
  cleaned : Bool
  err : Bool
deriving DecidableEq, Repr

/-- `_stream_audio_file(websocket, file_path, streaming_params, filename)`
on a file whose bytes are `data`.  The cleanup of a converted temp file
sits *after* the `async with` block, not in a `finally`: when an
exception escapes the send loop it propagates to the caller's `except`
clauses and the `unlink` is skipped. -/
def stream_audio_file (pathSegs : List String) (cs : Nat)
    (polls : List (Option Msg)) (sOk : List Bool) (data : List Nat) :
    StreamRes :=
  let lr := streamLoop cs polls sOk (data.drop (headerSkip pathSegs))
  if lr.err then
    ⟨.openFile pathSegs :: lr.evs, lr.sent, false, true⟩
  else if isTempArtifact pathSegs then
    ⟨.openFile pathSegs :: lr.evs ++ [.unlink pathSegs], lr.sent, true, false⟩
  else
    ⟨.openFile pathSegs :: lr.evs, lr.sent, false, false⟩

/-- Result of a whole `handle_audio_file_stream` session. -/
structure SessionRes where
  outcome : VOut
  evs : List Ev
  sent : List (List Nat)
  cleaned : Bool
  streamErr : Bool
deriving DecidableEq, Repr

/-- `handle_audio_file_stream(websocket, filename)`: validation (with
optional MP3 conversion) followed, on success, by the send loop over the
bytes `data` of the actual (possibly converted) file.  Exceptions from
the loop are caught and logged by the handler; they do not reach the
router. -/
def handle_audio_file_stream (env : Env) (filename : String)
    (polls : List (Option Msg)) (sOk : List Bool) (data : List Nat) :
    SessionRes :=
  match validate_and_get_streaming_params env filename with
  | (.ok params actualPath, vevs) =>
    let sr := stream_audio_file actualPath params.chunk_size polls sOk data
    ⟨.ok params actualPath, vevs ++ sr.evs, sr.sent, sr.cleaned, sr.err⟩
  | (out, vevs) => ⟨out, vevs, [], false, false⟩

/-! ## Echo Session Manager (`handle_audio_stream`) -/

/-- The text rejection sent for a text frame on the echo path. -/
def echoErrorText : String := "Error: Only binary audio data is supported."

/-- `handle_audio_stream(websocket)` over the inbound frame sequence:
binary frames are echoed verbatim, text frames get exactly one text error
and the loop continues, other frames are ignored; a disconnect (or the
receive failure that follows it) ends the loop cleanly. -/
def handle_audio_stream : List Msg → List Ev
  | [] => []
  | .bin b :: rest => .send b :: handle_audio_stream rest
  | .txt _ :: rest => .sendText echoErrorText :: handle_audio_stream rest
  | .other :: rest => handle_audio_stream rest
  | .disconnect :: _ => []

/-! ## Trace shape checkers for the send loop -/

/-- Shape of one run of the send loop: each iteration is
`poll(false) – read – send – sleep`, in that order, with the read length
matching the sent chunk; the run ends with an observed disconnect
(`poll true`), with an empty read, or with a read whose send raised. -/
def okTrace : List Ev → Bool
  | [.poll true] => true
  | [.poll false, .read _] => true
  | .poll false :: .read n :: .send c :: .sleep :: rest =>
      (c.length == n) && okTrace rest
  | _ => false

/-- `poll true` (an observed disconnect) is terminal: nothing at all
follows it in the trace. -/
def stopsAtDisc : List Ev → Bool
  | [] => true
  | .poll true :: rest => rest.isEmpty
  | _ :: rest => stopsAtDisc rest

/-- Non-terminal frames of the echo loop. -/
def echoContinues : Msg → Bool
  | .disconnect => false
  | _ => true

/-- The (at most one) response the echo loop gives to one frame. -/
def echoResponse : Msg → Option Ev
  | .bin b => some (.send b)
  | .txt _ => some (.sendText echoErrorText)
  | _ => none

/-! ## Lemmas about the send loop -/

lemma pollDisc_headD_false (polls : List (Option Msg))
    (hp : ∀ m ∈ polls, pollDisc m = false) :
    pollDisc (polls.headD none) = false := by
  cases polls with
  | nil => rfl
  | cons a l => exact hp a (List.mem_cons_self a l)

lemma headD_true_of_all (sOk : List Bool) (h : ∀ b ∈ sOk, b = true) :
    sOk.headD true = true := by
  cases sOk with
  | nil => rfl
  | cons a l => exact h a (List.mem_cons_self a l)

/-- On the empty byte source the loop sends nothing. -/
lemma streamLoop_data_nil (cs : Nat) (polls : List (Option Msg))
    (sOk : List Bool) : (streamLoop cs polls sOk []).sent = [] := by
  rw [streamLoop]
  by_cases h : pollDisc (polls.headD none) = true
  · rw [if_pos h]
  · rw [if_neg h, dif_pos (by simp)]

/-- A run with no disconnect observation and no send failure drains the
whole source: the concatenation of the sent chunks is exactly the input,
and no exception escapes. -/
lemma streamLoop_normal (cs : Nat) (hcs : 0 < cs) :
    ∀ (polls : List (Option Msg)) (sOk : List Bool) (data : List Nat),
      (∀ m ∈ polls, pollDisc m = false) → (∀ b ∈ sOk, b = true) →
      (streamLoop cs polls sOk data).sent.flatten = data
        ∧ (streamLoop cs polls sOk data).err = false := by
  intro polls sOk data
  induction polls, sOk, data using streamLoop.induct cs with
  | case1 polls sOk data h =>
    intro hp _
    rw [pollDisc_headD_false polls hp] at h
    cases h
  | case2 polls sOk data h1 h2 =>
    intro _ _
    have hd : data = [] := by
      rcases List.take_eq_nil_iff.mp h2 with h | h
      · exact absurd h (by omega)
      · exact h
    subst hd
    rw [streamLoop, if_neg h1, dif_pos (by simp)]
    exact ⟨rfl, rfl⟩
  | case3 polls sOk data h1 h2 h3 ih =>
    intro hp hs
    have ih' := ih (fun m hm => hp m (List.mem_of_mem_drop hm))
                   (fun b hb => hs b (List.mem_of_mem_drop hb))
    rw [streamLoop, if_neg h1, dif_neg h2, if_pos h3]
    refine ⟨?_, ih'.2⟩
    show (data.take cs :: _).flatten = data
    rw [List.flatten_cons, ih'.1, List.take_append_drop]
  | case4 polls sOk data h1 h2 h3 =>
    intro _ hs
    exact absurd (headD_true_of_all sOk hs) h3

/-- Every sent chunk has at most the computed chunk size. -/
lemma streamLoop_sent_le (cs : Nat) :
    ∀ (polls : List (Option Msg)) (sOk : List Bool) (data : List Nat),
      ∀ c ∈ (streamLoop cs polls sOk data).sent, c.length ≤ cs := by
  intro polls sOk data
  induction polls, sOk, data using streamLoop.induct cs with
  | case1 polls sOk data h =>
    rw [streamLoop, if_pos h]; intro c hc; cases hc
  | case2 polls sOk data h1 h2 =>
    rw [streamLoop, if_neg h1, dif_pos h2]; intro c hc; cases hc
  | case3 polls sOk data h1 h2 h3 ih =>
    rw [streamLoop, if_neg h1, dif_neg h2, if_pos h3]
    intro c hc
    rcases List.mem_cons.mp hc with rfl | hm
    · simpa using List.length_take_le cs data
    · exact ih c hm
  | case4 polls sOk data h1 h2 h3 =>
    rw [streamLoop, if_neg h1, dif_neg h2, if_neg h3]; intro c hc; cases hc

/-- Every sent chunk except possibly the last has exactly the computed
chunk size. -/
lemma streamLoop_dropLast_full (cs : Nat) :
    ∀ (polls : List (Option Msg)) (sOk : List Bool) (data : List Nat),
      ∀ c ∈ (streamLoop cs polls sOk data).sent.dropLast, c.length = cs := by
  intro polls sOk data
  induction polls, sOk, data using streamLoop.induct cs with
  | case1 polls sOk data h =>
    rw [streamLoop, if_pos h]; intro c hc; cases hc
  | case2 polls sOk data h1 h2 =>
    rw [streamLoop, if_neg h1, dif_pos h2]; intro c hc; cases hc
  | case3 polls sOk data h1 h2 h3 ih =>
    rw [streamLoop, if_neg h1, dif_neg h2, if_pos h3]
    show ∀ c ∈ (data.take cs :: (streamLoop cs _ _ _).sent).dropLast, c.length = cs
    by_cases hr : (streamLoop cs (polls.drop 1) (sOk.drop 1) (data.drop cs)).sent = []
    · rw [hr]; intro c hc; cases hc
    · rw [List.dropLast_cons_of_ne_nil hr]
      intro c hc
      rcases List.mem_cons.mp hc with rfl | hm
      · -- the next iteration sent something, so this chunk was full
        have hd : data.drop cs ≠ [] := by
          intro hnil
          rw [hnil, streamLoop_data_nil] at hr
          exact hr rfl
        have hlt : cs < data.length := by
          by_contra hle
          exact hd (List.drop_eq_nil_iff.mpr (by omega))
        simp [List.length_take]
        omega
      · exact ih c hm
  | case4 polls sOk data h1 h2 h3 =>
    rw [streamLoop, if_neg h1, dif_neg h2, if_neg h3]; intro c hc; cases hc

/-- Every run of the send loop has the `poll–read–send–sleep` iteration
shape. -/
lemma streamLoop_okTrace (cs : Nat) :
    ∀ (polls : List (Option Msg)) (sOk : List Bool) (data : List Nat),
      okTrace (streamLoop cs polls sOk data).evs = true := by
  intro polls sOk data
  induction polls, sOk, data using streamLoop.induct cs with
  | case1 polls sOk data h =>
    rw [streamLoop, if_pos h]; rfl
  | case2 polls sOk data h1 h2 =>
    rw [streamLoop, if_neg h1, dif_pos h2]; rfl
  | case3 polls sOk data h1 h2 h3 ih =>
    rw [streamLoop, if_neg h1, dif_neg h2, if_pos h3]
    show okTrace (.poll false :: .read _ :: .send _ :: .sleep :: _) = true
    simp only [List.drop_one] at ih
    simp [okTrace, ih]
  | case4 polls sOk data h1 h2 h3 =>
    rw [streamLoop, if_neg h1, dif_neg h2, if_neg h3]; rfl

/-- In every run, nothing follows an observed disconnect. -/
lemma streamLoop_stopsAtDisc (cs : Nat) :
    ∀ (polls : List (Option Msg)) (sOk : List Bool) (data : List Nat),
      stopsAtDisc (streamLoop cs polls sOk data).evs = true := by
  intro polls sOk data
  induction polls, sOk, data using streamLoop.induct cs with
  | case1 polls sOk data h =>
    rw [streamLoop, if_pos h]; rfl
  | case2 polls sOk data h1 h2 =>
    rw [streamLoop, if_neg h1, dif_pos h2]; rfl
  | case3 polls sOk data h1 h2 h3 ih =>
    rw [streamLoop, if_neg h1, dif_neg h2, if_pos h3]
    show stopsAtDisc (.poll false :: .read _ :: .send _ :: .sleep :: _) = true
    simpa [stopsAtDisc] using ih
  | case4 polls sOk data h1 h2 h3 =>
    rw [streamLoop, if_neg h1, dif_neg h2, if_neg h3]; rfl

/-- A trace satisfying `stopsAtDisc` has nothing after a `poll true`. -/
lemma stopsAtDisc_spec :
    ∀ (evs : List Ev), stopsAtDisc evs = true →
      ∀ (l₁ l₂ : List Ev), evs = l₁ ++ Ev.poll true :: l₂ → l₂ = [] := by
  intro evs
  induction evs with
  | nil =>
    intro _ l₁ l₂ h
    exact absurd h.symm (by simp)
  | cons e rest ih =>
    intro hs l₁ l₂ h
    cases l₁ with
    | nil =>
      simp only [List.nil_append, List.cons.injEq] at h
      obtain ⟨he, hr⟩ := h
      subst he
      subst hr
      simpa [stopsAtDisc, List.isEmpty_iff] using hs
    | cons a l₁' =>
      simp only [List.cons_append, List.cons.injEq] at h
      have hrest : rest = l₁' ++ Ev.poll true :: l₂ := h.2
      have hs' : stopsAtDisc rest = true := by
        cases e with
        | poll d =>
          cases d with
          | true =>
            exfalso
            have : rest.isEmpty = true := by simpa [stopsAtDisc] using hs
            rw [List.isEmpty_iff.mp this] at hrest
            exact absurd hrest.symm (by simp)
          | false => simpa [stopsAtDisc] using hs
        | stat p => simpa [stopsAtDisc] using hs
        | transcodeCall r => simpa [stopsAtDisc] using hs
        | close c r => simpa [stopsAtDisc] using hs
        | openFile p => simpa [stopsAtDisc] using hs
        | read n => simpa [stopsAtDisc] using hs
        | send b => simpa [stopsAtDisc] using hs
        | sendText s => simpa [stopsAtDisc] using hs
        | sleep => simpa [stopsAtDisc] using hs
        | unlink p => simpa [stopsAtDisc] using hs
      exact ih hs' l₁' l₂ hrest

/-- The loop never emits a text frame. -/
lemma streamLoop_no_sendText (cs : Nat) :
    ∀ (polls : List (Option Msg)) (sOk : List Bool) (data : List Nat)
      (s : String), Ev.sendText s ∉ (streamLoop cs polls sOk data).evs := by
  intro polls sOk data
  induction polls, sOk, data using streamLoop.induct cs with
  | case1 polls sOk data h =>
    rw [streamLoop, if_pos h]; intro s hs; simp at hs
  | case2 polls sOk data h1 h2 =>
    rw [streamLoop, if_neg h1, dif_pos h2]; intro s hs; simp at hs
  | case3 polls sOk data h1 h2 h3 ih =>
    rw [streamLoop, if_neg h1, dif_neg h2, if_pos h3]
    intro s hs
    simp only [List.mem_cons] at hs
    rcases hs with h | h | h | h | h
    · cases h
    · cases h
    · cases h
    · cases h
    · exact ih s h
  | case4 polls sOk data h1 h2 h3 =>
    rw [streamLoop, if_neg h1, dif_neg h2, if_neg h3]; intro s hs; simp at hs

/-- The loop never closes the channel. -/
lemma streamLoop_no_close (cs : Nat) :
    ∀ (polls : List (Option Msg)) (sOk : List Bool) (data : List Nat)
      (c : Nat) (r : String), Ev.close c r ∉ (streamLoop cs polls sOk data).evs := by
  intro polls sOk data
  induction polls, sOk, data using streamLoop.induct cs with
  | case1 polls sOk data h =>
    rw [streamLoop, if_pos h]; intro c r hs; simp at hs
  | case2 polls sOk data h1 h2 =>
    rw [streamLoop, if_neg h1, dif_pos h2]; intro c r hs; simp at hs
  | case3 polls sOk data h1 h2 h3 ih =>
    rw [streamLoop, if_neg h1, dif_neg h2, if_pos h3]
    intro c r hs
    simp only [List.mem_cons] at hs
    rcases hs with h | h | h | h | h
    · cases h
    · cases h
    · cases h
    · cases h
    · exact ih c r h
  | case4 polls sOk data h1 h2 h3 =>
    rw [streamLoop, if_neg h1, dif_neg h2, if_neg h3]; intro c r hs; simp at hs

/-- Heads of equal `pollDisc`-images agree. -/
lemma map_pollDisc_headD {p₁ p₂ : List (Option Msg)}
    (h : p₁.map pollDisc = p₂.map pollDisc) :
    pollDisc (p₁.headD none) = pollDisc (p₂.headD none) := by
  cases p₁ with
  | nil => cases p₂ with
    | nil => rfl
    | cons b l₂ => simp at h
  | cons a l₁ => cases p₂ with
    | nil => simp at h
    | cons b l₂ =>
      simp only [List.map_cons, List.cons.injEq] at h
      simpa using h.1

/-- The run of the send loop depends on the inbound traffic only through
the per-iteration disconnect observations: two inbound streams with the
same `pollDisc` image produce identical runs (same events, same bytes). -/
lemma streamLoop_polls_congr (cs : Nat) :
    ∀ (polls₁ : List (Option Msg)) (sOk : List Bool) (data : List Nat)
      (polls₂ : List (Option Msg)),
      polls₁.map pollDisc = polls₂.map pollDisc →
      streamLoop cs polls₁ sOk data = streamLoop cs polls₂ sOk data := by
  intro polls₁ sOk data
  induction polls₁, sOk, data using streamLoop.induct cs with
  | case1 polls sOk data h =>
    intro polls₂ hm
    have hh := map_pollDisc_headD hm
    rw [streamLoop, if_pos h]
    conv_rhs => rw [streamLoop]
    rw [if_pos (hh ▸ h)]
  | case2 polls sOk data h1 h2 =>
    intro polls₂ hm
    have hh := map_pollDisc_headD hm
    rw [streamLoop, if_neg h1, dif_pos h2]
    conv_rhs => rw [streamLoop]
    rw [if_neg (hh ▸ h1), dif_pos h2]
  | case3 polls sOk data h1 h2 h3 ih =>
    intro polls₂ hm
    have hh := map_pollDisc_headD hm
    have ht : (polls.drop 1).map pollDisc = (polls₂.drop 1).map pollDisc := by
      rw [List.map_drop, List.map_drop, hm]
    rw [streamLoop, if_neg h1, dif_neg h2, if_pos h3]
    conv_rhs => rw [streamLoop]
    rw [if_neg (hh ▸ h1), dif_neg h2, if_pos h3, ih _ ht]
  | case4 polls sOk data h1 h2 h3 =>
    intro polls₂ hm
    have hh := map_pollDisc_headD hm
    rw [streamLoop, if_neg h1, dif_neg h2, if_neg h3]
    conv_rhs => rw [streamLoop]
    rw [if_neg (hh ▸ h1), dif_neg h2, if_neg h3]

/-- The loop never invokes the transcoder. -/
lemma streamLoop_no_transcode (cs : Nat) :
    ∀ (polls : List (Option Msg)) (sOk : List Bool) (data : List Nat)
      (r : Nat), Ev.transcodeCall r ∉ (streamLoop cs polls sOk data).evs := by
  intro polls sOk data
  induction polls, sOk, data using streamLoop.induct cs with
  | case1 polls sOk data h =>
    rw [streamLoop, if_pos h]; intro r hs; simp at hs
  | case2 polls sOk data h1 h2 =>
    rw [streamLoop, if_neg h1, dif_pos h2]; intro r hs; simp at hs
  | case3 polls sOk data h1 h2 h3 ih =>
    rw [streamLoop, if_neg h1, dif_neg h2, if_pos h3]
    intro r hs
    simp only [List.mem_cons] at hs
    rcases hs with h | h | h | h | h
    · cases h
    · cases h
    · cases h
    · cases h
    · exact ih r h
  | case4 polls sOk data h1 h2 h3 =>
    rw [streamLoop, if_neg h1, dif_neg h2, if_neg h3]; intro r hs; simp at hs

/-! ## Lemmas about `stream_audio_file` and the session -/

/-- The chunks sent by `_stream_audio_file` are those of its inner loop,
run on the source minus the header skip. -/
lemma stream_audio_file_sent (pathSegs : List String) (cs : Nat)
    (polls : List (Option Msg)) (sOk : List Bool) (data : List Nat) :
    (stream_audio_file pathSegs cs polls sOk data).sent
      = (streamLoop cs polls sOk (data.drop (headerSkip pathSegs))).sent := by
  simp only [stream_audio_file]
  split_ifs <;> rfl

lemma stream_audio_file_err (pathSegs : List String) (cs : Nat)
    (polls : List (Option Msg)) (sOk : List Bool) (data : List Nat) :
    (stream_audio_file pathSegs cs polls sOk data).err
      = (streamLoop cs polls sOk (data.drop (headerSkip pathSegs))).err := by
  simp only [stream_audio_file]
  split_ifs with h1 h2 <;> simp_all

lemma stream_audio_file_no_sendText (pathSegs : List String) (cs : Nat)
    (polls : List (Option Msg)) (sOk : List Bool) (data : List Nat)
    (s : String) :
    Ev.sendText s ∉ (stream_audio_file pathSegs cs polls sOk data).evs := by
  simp only [stream_audio_file]
  split_ifs <;> simp [streamLoop_no_sendText]

lemma stream_audio_file_no_close (pathSegs : List String) (cs : Nat)
    (polls : List (Option Msg)) (sOk : List Bool) (data : List Nat)
    (c : Nat) (r : String) :
    Ev.close c r ∉ (stream_audio_file pathSegs cs polls sOk data).evs := by
  simp only [stream_audio_file]
  split_ifs <;> simp [streamLoop_no_close]

lemma stream_audio_file_no_transcode (pathSegs : List String) (cs : Nat)
    (polls : List (Option Msg)) (sOk : List Bool) (data : List Nat)
    (r : Nat) :
    Ev.transcodeCall r ∉ (stream_audio_file pathSegs cs polls sOk data).evs := by
  simp only [stream_audio_file]
  split_ifs <;> simp [streamLoop_no_transcode]

/-- When no exception escapes the loop, a temp-artifact path is unlinked. -/
lemma stream_audio_file_cleanup (pathSegs : List String) (cs : Nat)
    (polls : List (Option Msg)) (sOk : List Bool) (data : List Nat)
    (htemp : isTempArtifact pathSegs = true)
    (herr : (stream_audio_file pathSegs cs polls sOk data).err = false) :
    (stream_audio_file pathSegs cs polls sOk data).cleaned = true
    ∧ Ev.unlink pathSegs ∈ (stream_audio_file pathSegs cs polls sOk data).evs := by
  simp only [stream_audio_file] at herr ⊢
  by_cases hb : (streamLoop cs polls sOk (data.drop (headerSkip pathSegs))).err = true
  · rw [if_pos hb] at herr
    cases herr
  · rw [if_neg hb] at herr ⊢
    rw [if_pos htemp]
    exact ⟨rfl, by simp⟩

/-- The computed chunk size is always positive (640, 320 or ⌊320⌋). -/
lemma chunk_size_pos (filename : String) (props : Option WavProps) :
    0 < (calculate_streaming_parameters filename props).chunk_size := by
  unfold calculate_streaming_parameters
  split_ifs <;> norm_num

/-! ## String lemmas for the temp artifact name -/

lemma pathSuffix_append_raw (l : List Char) (hl : l ≠ []) :
    pathSuffix ⟨l ++ ['.', 'r', 'a', 'w']⟩ = ".raw" := by
  have hlen : 0 < l.length := List.length_pos.mpr hl
  have hfind : List.findIdx? (fun d => d == '.')
      ('w' :: 'a' :: 'r' :: '.' :: l.reverse) = some 3 := rfl
  have hidx : lastIdxOf '.' (l ++ ['.', 'r', 'a', 'w']) = some l.length := by
    unfold lastIdxOf
    rw [List.reverse_append]
    rw [show (['.', 'r', 'a', 'w'] : List Char).reverse ++ l.reverse
      = 'w' :: 'a' :: 'r' :: '.' :: l.reverse from rfl]
    rw [hfind]
    simp [List.length_append]
  unfold pathSuffix
  rw [show (String.mk (l ++ ['.', 'r', 'a', 'w'])).data
    = l ++ ['.', 'r', 'a', 'w'] from rfl, hidx]
  show (if 0 < l.length ∧ l.length < (l ++ ['.', 'r', 'a', 'w']).length - 1
    then (⟨List.drop l.length (l ++ ['.', 'r', 'a', 'w'])⟩ : String) else "") = ".raw"
  rw [if_pos ⟨hlen, by simp [List.length_append]⟩]
  rw [List.drop_left l ['.', 'r', 'a', 'w']]

lemma listContains_prefix (pat rest : List Char) (h : pat ≠ []) :
    listContains pat (pat ++ rest) = true := by
  cases pat with
  | nil => exact absurd rfl h
  | cons c cs =>
    have hpre : (c :: cs).isPrefixOf ((c :: cs) ++ rest) = true :=
      List.isPrefixOf_iff_prefix.mpr (List.prefix_append _ _)
    rw [List.cons_append]
    rw [List.cons_append] at hpre
    simp [listContains, hpre]

/-- The converted temp file satisfies the cleanup guard of
`_stream_audio_file`. -/
lemma isTempArtifact_tempPath (filename : String) (rate : Nat) :
    isTempArtifact (tempPathSegs filename rate) = true := by
  have hbase : baseName (tempPathSegs filename rate) = tempBaseName filename rate := rfl
  have hsfx : pathSuffix (tempBaseName filename rate) = ".raw" := by
    show pathSuffix ⟨("converted_".data ++ removeMp3 filename.data ++ "_l16_".data
      ++ (toString rate).data) ++ ".raw".data⟩ = ".raw"
    exact pathSuffix_append_raw _ (by simp)
  have hcontains : strContains (tempBaseName filename rate) "converted_" = true := by
    unfold strContains tempBaseName
    show listContains "converted_".data ("converted_".data ++ (removeMp3 filename.data
      ++ "_l16_".data ++ (toString rate).data ++ ".raw".data)) = true
    · have := listContains_prefix "converted_".data
        (removeMp3 filename.data ++ "_l16_".data ++ (toString rate).data ++ ".raw".data)
        (by decide)
      simpa [List.append_assoc] using this
  unfold isTempArtifact
  rw [hbase, hsfx, hcontains]
  decide

/-! ## Validation characterization lemmas -/

/-- Each rejection branch of `_validate_and_get_streaming_params` closes
with code 1003 and its fixed reason; the validator sends no text frame,
and every close it emits carries code 1003. -/
lemma validate_spec (env : Env) (filename : String) :
    (∀ s, Ev.sendText s ∉ (validate_and_get_streaming_params env filename).2)
    ∧ (∀ c r, Ev.close c r ∈ (validate_and_get_streaming_params env filename).2 → c = 1003)
    ∧ ((validate_and_get_streaming_params env filename).1 = .notFound →
        Ev.close 1003 "File not found" ∈ (validate_and_get_streaming_params env filename).2)
    ∧ ((validate_and_get_streaming_params env filename).1 = .invalidPath →
        Ev.close 1003 "Invalid file path" ∈ (validate_and_get_streaming_params env filename).2)
    ∧ ((validate_and_get_streaming_params env filename).1 = .unsupported →
        Ev.close 1003 "Unsupported audio format" ∈ (validate_and_get_streaming_params env filename).2)
    ∧ ((validate_and_get_streaming_params env filename).1 = .convFailed →
        Ev.close 1003 "MP3 conversion failed" ∈ (validate_and_get_streaming_params env filename).2) := by
  unfold validate_and_get_streaming_params
  dsimp only
  split_ifs with h1 h2 h3 h4
  · generalize (convert_mp3_to_l16 filename env.tenv).result = res
    cases res with
    | none => refine ⟨?_, ?_, ?_, ?_, ?_, ?_⟩ <;> intros <;> simp_all
    | some p => refine ⟨?_, ?_, ?_, ?_, ?_, ?_⟩ <;> intros <;> simp_all
  · refine ⟨?_, ?_, ?_, ?_, ?_, ?_⟩ <;> intros <;> simp_all
  · refine ⟨?_, ?_, ?_, ?_, ?_, ?_⟩ <;> intros <;> simp_all
  · refine ⟨?_, ?_, ?_, ?_, ?_, ?_⟩ <;> intros <;> simp_all
  · refine ⟨?_, ?_, ?_, ?_, ?_, ?_⟩ <;> intros <;> simp_all

/-- A session's outcome is the validator's, and its trace is the
validator's trace followed by streaming events only (no text frame, no
close, no transcoder call once streaming starts). -/
lemma session_evs (env : Env) (filename : String) (polls : List (Option Msg))
    (sOk : List Bool) (data : List Nat) :
    (handle_audio_file_stream env filename polls sOk data).outcome
        = (validate_and_get_streaming_params env filename).1
    ∧ ∃ rest,
        (handle_audio_file_stream env filename polls sOk data).evs
          = (validate_and_get_streaming_params env filename).2 ++ rest
        ∧ (∀ s, Ev.sendText s ∉ rest)
        ∧ (∀ c r, Ev.close c r ∉ rest)
        ∧ (∀ r, Ev.transcodeCall r ∉ rest) := by
  unfold handle_audio_file_stream
  rcases hv : validate_and_get_streaming_params env filename with ⟨out, vevs⟩
  cases out with
  | ok params path =>
    exact ⟨rfl, (stream_audio_file path params.chunk_size polls sOk data).evs, rfl,
      fun s => stream_audio_file_no_sendText path params.chunk_size polls sOk data s,
      fun c r => stream_audio_file_no_close path params.chunk_size polls sOk data c r,
      fun r => stream_audio_file_no_transcode path params.chunk_size polls sOk data r⟩
  | notFound => exact ⟨rfl, [], by simp, by simp, by simp, by simp⟩
  | invalidPath => exact ⟨rfl, [], by simp, by simp, by simp, by simp⟩
  | unsupported => exact ⟨rfl, [], by simp, by simp, by simp, by simp⟩
  | convFailed => exact ⟨rfl, [], by simp, by simp, by simp, by simp⟩

/-- On a validated `.mp3` request the validator spawns the transcoder
with the rate selected by the filename hint. -/
lemma validate_mp3_transcode (env : Env) (filename : String)
    (hex : normSegs (env.cwd ++ filePathSegs filename) ∈ env.fs)
    (hpre : normSegs (env.cwd ++ audioDirSegs)
      <+: normSegs (env.cwd ++ filePathSegs filename))
    (hsfx : strLower (pathSuffix (baseName (filePathSegs filename))) = ".mp3") :
    Ev.transcodeCall (mp3TargetRate filename)
      ∈ (validate_and_get_streaming_params env filename).2 := by
  unfold validate_and_get_streaming_params
  dsimp only
  rw [if_neg (by simpa using hex), if_neg (by simpa using hpre),
    if_neg (by simp [hsfx, supportedFormats]), if_pos hsfx]
  generalize (convert_mp3_to_l16 filename env.tenv).result = res
  cases res with
  | none => simp
  | some p => simp

/-- For any non-`.mp3` request the validator never spawns the
transcoder. -/
lemma validate_no_transcode_not_mp3 (env : Env) (filename : String)
    (hsfx : strLower (pathSuffix (baseName (filePathSegs filename))) ≠ ".mp3") :
    ∀ r, Ev.transcodeCall r ∉ (validate_and_get_streaming_params env filename).2 := by
  intro r
  unfold validate_and_get_streaming_params
  dsimp only
  by_cases h1 : normSegs (env.cwd ++ filePathSegs filename) ∈ env.fs
  · rw [if_neg (by simpa using h1)]
    by_cases h2 : normSegs (env.cwd ++ audioDirSegs)
        <+: normSegs (env.cwd ++ filePathSegs filename)
    · rw [if_neg (by simpa using h2)]
      by_cases h3 : strLower (pathSuffix (baseName (filePathSegs filename)))
          ∈ supportedFormats
      · rw [if_neg (by simpa using h3), if_neg hsfx]
        simp
      · rw [if_pos (by simpa using h3)]
        simp
    · rw [if_pos (by simpa using h2)]
      simp
  · rw [if_pos h1]
    simp

/-- On an escaping resolved path the validator stops at the existence
probe (absent file) or the containment check (present file). -/
lemma validate_escape (env : Env) (filename : String)
    (hesc : ¬ (normSegs (env.cwd ++ audioDirSegs)
      <+: normSegs (env.cwd ++ filePathSegs filename))) :
    validate_and_get_streaming_params env filename
      = if normSegs (env.cwd ++ filePathSegs filename) ∈ env.fs
        then (.invalidPath,
          [.stat (normSegs (env.cwd ++ filePathSegs filename)),
           .close 1003 "Invalid file path"])
        else (.notFound,
          [.stat (normSegs (env.cwd ++ filePathSegs filename)),
           .close 1003 "File not found"]) := by
  unfold validate_and_get_streaming_params
  dsimp only
  by_cases hm : normSegs (env.cwd ++ filePathSegs filename) ∈ env.fs
  · rw [if_neg (by simpa using hm), if_pos hesc, if_pos hm]
  · rw [if_pos hm, if_neg hm]

/-- When validation succeeds on an `.mp3` request, the actual streamed
path is the converted temp file. -/
lemma validate_ok_mp3_path (env : Env) (filename : String)
    (params : StreamParams) (actualPath : List String)
    (hsfx : strLower (pathSuffix (baseName (filePathSegs filename))) = ".mp3")
    (hv : (validate_and_get_streaming_params env filename).1
      = .ok params actualPath) :
    actualPath = tempPathSegs filename (mp3TargetRate filename) := by
  have hres : (convert_mp3_to_l16 filename env.tenv).result = none
      ∨ (convert_mp3_to_l16 filename env.tenv).result
        = some (tempPathSegs filename (mp3TargetRate filename)) := by
    unfold convert_mp3_to_l16
    dsimp only
    split_ifs <;> simp
  unfold validate_and_get_streaming_params at hv
  dsimp only at hv
  by_cases h1 : normSegs (env.cwd ++ filePathSegs filename) ∈ env.fs
  · rw [if_neg (by simpa using h1)] at hv
    by_cases h2 : normSegs (env.cwd ++ audioDirSegs)
        <+: normSegs (env.cwd ++ filePathSegs filename)
    · rw [if_neg (by simpa using h2)] at hv
      rw [if_neg (by simp [hsfx, supportedFormats]), if_pos hsfx] at hv
      rcases hres with h | h <;> simp only [h] at hv
      · exact absurd hv (by simp)
      · exact ((VOut.ok.injEq _ _ _ _).mp hv).2.symm
    · rw [if_pos (by simpa using h2)] at hv
      exact absurd hv (by simp)
  · rw [if_pos h1] at hv
    exact absurd hv (by simp)

/-! ## The claims -/

/-- **C1.** For every audio file with a supported extension, a streaming
session that runs to normal completion (no disconnect observed, every
send succeeds) sends the file's byte content exactly once, in source
order (the concatenation of the sent chunks is the source minus the
header skip), split into chunks of the computed chunk size with only the
final chunk possibly shorter, and the sum of the sent chunk lengths
equals the source length minus `headerSkip`, which is 44 for a `.wav`
source and 0 otherwise. -/
theorem c1_full_stream_sends_exact_content
    (pathSegs : List String) (filename : String) (props : Option WavProps)
    (polls : List (Option Msg)) (sOk : List Bool) (data : List Nat)
    (hp : ∀ m ∈ polls, pollDisc m = false)
    (hok : ∀ b ∈ sOk, b = true) :
    (stream_audio_file pathSegs
        (calculate_streaming_parameters filename props).chunk_size
        polls sOk data).sent.flatten = data.drop (headerSkip pathSegs)
    ∧ ((stream_audio_file pathSegs
        (calculate_streaming_parameters filename props).chunk_size
        polls sOk data).sent.map List.length).sum
        = data.length - headerSkip pathSegs
    ∧ (∀ c ∈ (stream_audio_file pathSegs
        (calculate_streaming_parameters filename props).chunk_size
        polls sOk data).sent.dropLast,
        c.length = (calculate_streaming_parameters filename props).chunk_size)
    ∧ (∀ c ∈ (stream_audio_file pathSegs
        (calculate_streaming_parameters filename props).chunk_size
        polls sOk data).sent,
        c.length ≤ (calculate_streaming_parameters filename props).chunk_size)
    ∧ headerSkip pathSegs
        = (if strLower (pathSuffix (baseName pathSegs)) = ".wav" then 44 else 0)
    ∧ (stream_audio_file pathSegs
        (calculate_streaming_parameters filename props).chunk_size
        polls sOk data).err = false := by
  have hcs := chunk_size_pos filename props
  have hn := streamLoop_normal
    (calculate_streaming_parameters filename props).chunk_size hcs
    polls sOk (data.drop (headerSkip pathSegs)) hp hok
  refine ⟨?_, ?_, ?_, ?_, rfl, ?_⟩
  · rw [stream_audio_file_sent, hn.1]
  · rw [stream_audio_file_sent]
    have hlen := congrArg List.length hn.1
    rw [List.length_flatten] at hlen
    rw [hlen, List.length_drop]
  · intro c hc
    rw [stream_audio_file_sent] at hc
    exact streamLoop_dropLast_full _ polls sOk _ c hc
  · intro c hc
    rw [stream_audio_file_sent] at hc
    exact streamLoop_sent_le _ polls sOk _ c hc
  · rw [stream_audio_file_err, hn.2]

/-- Witness for C1 at a concrete input: a 50-byte `.wav` file, no
disconnect, no send failure. -/
theorem c1_witness :
    (stream_audio_file ["audio_files", "t.wav"]
        (calculate_streaming_parameters "t.wav" none).chunk_size
        [] [] (List.range 50)).sent.flatten
      = (List.range 50).drop (headerSkip ["audio_files", "t.wav"])
    ∧ ((stream_audio_file ["audio_files", "t.wav"]
        (calculate_streaming_parameters "t.wav" none).chunk_size
        [] [] (List.range 50)).sent.map List.length).sum
        = (List.range 50).length - headerSkip ["audio_files", "t.wav"]
    ∧ (∀ c ∈ (stream_audio_file ["audio_files", "t.wav"]
        (calculate_streaming_parameters "t.wav" none).chunk_size
        [] [] (List.range 50)).sent.dropLast,
        c.length = (calculate_streaming_parameters "t.wav" none).chunk_size)
    ∧ (∀ c ∈ (stream_audio_file ["audio_files", "t.wav"]
        (calculate_streaming_parameters "t.wav" none).chunk_size
        [] [] (List.range 50)).sent,
        c.length ≤ (calculate_streaming_parameters "t.wav" none).chunk_size)
    ∧ headerSkip ["audio_files", "t.wav"]
        = (if strLower (pathSuffix (baseName ["audio_files", "t.wav"])) = ".wav"
            then 44 else 0)
    ∧ (stream_audio_file ["audio_files", "t.wav"]
        (calculate_streaming_parameters "t.wav" none).chunk_size
        [] [] (List.range 50)).err = false :=
  c1_full_stream_sends_exact_content ["audio_files", "t.wav"] "t.wav" none
    [] [] (List.range 50) (by simp) (by simp)

/-- **C7.** Every iteration of the send loop performs, in order, the
non-blocking disconnect check, the read of up to `chunkSizeBytes`, the
binary send, and the inter-chunk sleep (`okTrace`); and once the check
observes a disconnect the loop exits immediately — nothing at all, in
particular no further chunk, follows a `poll true` in the trace. -/
theorem c7_loop_order_and_disconnect (cs : Nat)
    (polls : List (Option Msg)) (sOk : List Bool) (data : List Nat) :
    okTrace (streamLoop cs polls sOk data).evs = true
    ∧ stopsAtDisc (streamLoop cs polls sOk data).evs = true
    ∧ (∀ l₁ l₂, (streamLoop cs polls sOk data).evs
        = l₁ ++ Ev.poll true :: l₂ → l₂ = []) :=
  ⟨streamLoop_okTrace cs polls sOk data,
   streamLoop_stopsAtDisc cs polls sOk data,
   fun l₁ l₂ h =>
     stopsAtDisc_spec _ (streamLoop_stopsAtDisc cs polls sOk data) l₁ l₂ h⟩

/-- Witness for C7: a run that observes a disconnect on its first poll
ends with nothing after the `poll true` event. -/
theorem c7_witness :
    okTrace (streamLoop 320 [some Msg.disconnect] [] [1, 2]).evs = true
    ∧ ([] : List Ev) = [] :=
  ⟨(c7_loop_order_and_disconnect 320 [some Msg.disconnect] [] [1, 2]).1,
   (c7_loop_order_and_disconnect 320 [some Msg.disconnect] [] [1, 2]).2.2 [] []
     (by rw [streamLoop]; decide)⟩

/-- **C10.** During playback the disconnect poll consumes inbound
messages, and non-disconnect traffic is silently discarded: two runs
whose inbound streams have the same disconnect pattern (`pollDisc`
image) are identical — same events and same bytes streamed — and the
streaming path answers nothing (no text frame is ever emitted). -/
theorem c10_inbound_noninterference (pathSegs : List String) (cs : Nat)
    (sOk : List Bool) (data : List Nat)
    (polls₁ polls₂ : List (Option Msg))
    (h : polls₁.map pollDisc = polls₂.map pollDisc) :
    stream_audio_file pathSegs cs polls₁ sOk data
      = stream_audio_file pathSegs cs polls₂ sOk data
    ∧ (∀ s, Ev.sendText s ∉ (stream_audio_file pathSegs cs polls₁ sOk data).evs) := by
  constructor
  · unfold stream_audio_file
    rw [streamLoop_polls_congr cs polls₁ sOk (data.drop (headerSkip pathSegs))
      polls₂ h]
  · exact fun s => stream_audio_file_no_sendText pathSegs cs polls₁ sOk data s

/-- Witness for C10: one run receives binary audio mid-playback, the
other a text frame and a ping; neither contains a disconnect, so the
runs coincide. -/
theorem c10_witness :
    stream_audio_file ["audio_files", "t8000.ogg"] 320
        [some (Msg.bin [9, 9]), none] [] [1, 2, 3]
      = stream_audio_file ["audio_files", "t8000.ogg"] 320
        [some (Msg.txt "hi"), some Msg.other] [] [1, 2, 3]
    ∧ (∀ s, Ev.sendText s ∉ (stream_audio_file ["audio_files", "t8000.ogg"] 320
        [some (Msg.bin [9, 9]), none] [] [1, 2, 3]).evs) :=
  c10_inbound_noninterference ["audio_files", "t8000.ogg"] 320 [] [1, 2, 3]
    [some (Msg.bin [9, 9]), none] [some (Msg.txt "hi"), some Msg.other]
    (by decide)

/-- **C9.** On the echo path, the responses are exactly: one verbatim
binary echo per inbound binary frame, one fixed text error per inbound
text frame (after which the loop continues), nothing for any other
frame; processing runs until the first disconnect (or the receive
failure following it), which ends the session cleanly. -/
theorem c9_echo_contract (msgs : List Msg) :
    handle_audio_stream msgs
      = (msgs.takeWhile echoContinues).filterMap echoResponse := by
  induction msgs with
  | nil => rfl
  | cons m rest ih =>
    cases m with
    | disconnect => rfl
    | bin b =>
      simp [handle_audio_stream, echoContinues, echoResponse,
        List.takeWhile_cons, ih]
    | txt s =>
      simp [handle_audio_stream, echoContinues, echoResponse,
        List.takeWhile_cons, ih]
    | other =>
      simp [handle_audio_stream, echoContinues, echoResponse,
        List.takeWhile_cons, ih]

/-- **C3 counterexample.** The claim as stated is false: the source
checks `file_path.exists()` *before* the containment check, so an
escaping resolved path that does not exist is rejected as
`File not found` (not as the path violation), and the existence probe —
file-system I/O on the resource — precedes every rejection (it is the
first event of the trace). -/
theorem c3_counterexample :
    ¬ (normSegs (([] : List String) ++ audioDirSegs)
        <+: normSegs (([] : List String) ++ filePathSegs "../x.wav"))
    ∧ (validate_and_get_streaming_params
        ⟨[], [], none, ⟨false, 0, true, 1⟩⟩ "../x.wav").1 = VOut.notFound
    ∧ (validate_and_get_streaming_params
        ⟨[], [], none, ⟨false, 0, true, 1⟩⟩ "../x.wav").1 ≠ VOut.invalidPath
    ∧ (validate_and_get_streaming_params
        ⟨[], [], none, ⟨false, 0, true, 1⟩⟩ "../x.wav").2.head?
        = some (Ev.stat (normSegs (([] : List String)
            ++ filePathSegs "../x.wav"))) := by
  decide

/-- **C3 (amended).** For every requested resource whose resolved path
escapes the audio root, the session is rejected before any file is
opened: with the path-violation outcome when the resolved path exists,
and with the not-found outcome otherwise (the existence probe runs
first); nothing is ever streamed. -/
theorem c3_amended_path_escape (env : Env) (filename : String)
    (polls : List (Option Msg)) (sOk : List Bool) (data : List Nat)
    (hesc : ¬ (normSegs (env.cwd ++ audioDirSegs)
      <+: normSegs (env.cwd ++ filePathSegs filename))) :
    (normSegs (env.cwd ++ filePathSegs filename) ∈ env.fs →
        (handle_audio_file_stream env filename polls sOk data).outcome
          = VOut.invalidPath)
    ∧ (normSegs (env.cwd ++ filePathSegs filename) ∉ env.fs →
        (handle_audio_file_stream env filename polls sOk data).outcome
          = VOut.notFound)
    ∧ (∀ p, Ev.openFile p
        ∉ (handle_audio_file_stream env filename polls sOk data).evs)
    ∧ (handle_audio_file_stream env filename polls sOk data).sent = [] := by
  have hv := validate_escape env filename hesc
  unfold handle_audio_file_stream
  rw [hv]
  by_cases hm : normSegs (env.cwd ++ filePathSegs filename) ∈ env.fs
  · rw [if_pos hm]
    exact ⟨fun _ => rfl, fun hn => absurd hm hn, fun p => by simp, rfl⟩
  · rw [if_neg hm]
    exact ⟨fun hmem => absurd hmem hm, fun _ => rfl, fun p => by simp, rfl⟩

/-- Witness for C3 (amended): `"../x.wav"` resolves outside the root;
the file exists at the escaped location, so the outcome is the path
violation and no file is opened. -/
theorem c3_witness :
    (handle_audio_file_stream ⟨[], [["x.wav"]], none, ⟨false, 0, true, 1⟩⟩
        "../x.wav" [] [] []).outcome = VOut.invalidPath
    ∧ (handle_audio_file_stream ⟨[], [["x.wav"]], none, ⟨false, 0, true, 1⟩⟩
        "../x.wav" [] [] []).sent = [] :=
  ⟨(c3_amended_path_escape ⟨[], [["x.wav"]], none, ⟨false, 0, true, 1⟩⟩
      "../x.wav" [] [] [] (by decide)).1 (by decide),
   (c3_amended_path_escape ⟨[], [["x.wav"]], none, ⟨false, 0, true, 1⟩⟩
      "../x.wav" [] [] [] (by decide)).2.2.2⟩

/-- **C4 counterexample.** The claim as stated is false: the source
never consults the header-backed sample rate (`_analyze_wav_properties`
only logs it).  On a `.wav` whose header says 44100 Hz but whose name
contains `"16000"`, the code keeps 16000 Hz and chunk size 640, while
the spec's rule (header preferred) would give 44100 Hz and
`floor(44100·16·1·0.02/8) = 1764`. -/
theorem c4_counterexample :
    (calculate_streaming_parameters "tone16000.wav"
        (some ⟨1, 44100, 2⟩)).sample_rate = 16000
    ∧ (computePacingSpec "tone16000.wav" (some ⟨1, 44100, 2⟩)).sample_rate
        = 44100
    ∧ (calculate_streaming_parameters "tone16000.wav"
        (some ⟨1, 44100, 2⟩)).chunk_size = 640
    ∧ (computePacingSpec "tone16000.wav" (some ⟨1, 44100, 2⟩)).chunk_size
        = 1764
    ∧ calculate_streaming_parameters "tone16000.wav" (some ⟨1, 44100, 2⟩)
        ≠ computePacingSpec "tone16000.wav" (some ⟨1, 44100, 2⟩) := by
  have h16 : strContains "tone16000.wav" "16000" = true := by decide
  have e1 : calculate_streaming_parameters "tone16000.wav" (some ⟨1, 44100, 2⟩)
      = ⟨640, mkRat 2 100, 16000⟩ := by
    unfold calculate_streaming_parameters
    rw [if_pos h16]
  have e2 : (computePacingSpec "tone16000.wav"
      (some ⟨1, 44100, 2⟩)).chunk_size = 1764 := by
    unfold computePacingSpec
    dsimp only
    rw [Rat.mkRat_eq_div]
    norm_num
    rfl
  refine ⟨by rw [e1], rfl, by rw [e1], e2, ?_⟩
  intro h
  have := congrArg StreamParams.sample_rate h
  rw [e1] at this
  exact absurd this (by decide)

/-- **C4 (amended).** The pacing computation resolves the effective
sample rate from the filename hint alone (16000 Hz when the name
contains `"16000"`, else 8000 Hz — also when it contains `"8000"`); the
header-backed properties are only logged and never affect the result.
For every input, `chunkSizeBytes = floor(sampleRate·16·1·0.02/8)` (640
at 16000 Hz, 320 at 8000 Hz) and the inter-chunk delay is the 20 ms
chunk duration, which never falls below the 5 ms floor. -/
theorem c4_amended_pacing (filename : String) (props : Option WavProps) :
    (calculate_streaming_parameters filename props).sample_rate
        = (if strContains filename "16000" then 16000 else 8000)
    ∧ ((calculate_streaming_parameters filename props).chunk_size : ℤ)
        = ⌊(((calculate_streaming_parameters filename props).sample_rate : ℚ)
            * 16 * 1 * (2 / 100)) / 8⌋
    ∧ (calculate_streaming_parameters filename props).sleep_time = 2 / 100
    ∧ (5 / 1000 : ℚ) ≤ (calculate_streaming_parameters filename props).sleep_time
    ∧ calculate_streaming_parameters filename props
        = calculate_streaming_parameters filename none := by
  unfold calculate_streaming_parameters
  dsimp only
  split_ifs with h1 h2 <;>
    refine ⟨rfl, ?_, ?_, ?_, rfl⟩ <;>
    simp only [Rat.mkRat_eq_div] <;>
    norm_num

/-- **C5.** The transcode fails exactly when the encoder times out (and
is then killed), exits nonzero, or leaves a missing/empty output file;
otherwise it returns the non-empty converted temp path.  And a session
whose conversion failed streams zero bytes. -/
theorem c5_transcode_failure_conditions (filename : String)
    (tenv : TranscodeEnv) :
    ((convert_mp3_to_l16 filename tenv).result = none
      ↔ (tenv.procTimeout = true ∨ tenv.exitCode ≠ 0
          ∨ ¬ tenv.outExists = true ∨ tenv.outSize = 0))
    ∧ ((convert_mp3_to_l16 filename tenv).killed = true
        ↔ tenv.procTimeout = true)
    ∧ (∀ p, (convert_mp3_to_l16 filename tenv).result = some p →
        tenv.outExists = true ∧ 0 < tenv.outSize
          ∧ p = tempPathSegs filename (mp3TargetRate filename))
    ∧ (∀ (env : Env) polls sOk (data : List Nat),
        (handle_audio_file_stream env filename polls sOk data).outcome
          = VOut.convFailed →
        (handle_audio_file_stream env filename polls sOk data).sent = []) := by
  have hsent : ∀ (env : Env) polls sOk (data : List Nat),
      (handle_audio_file_stream env filename polls sOk data).outcome
        = VOut.convFailed →
      (handle_audio_file_stream env filename polls sOk data).sent = [] := by
    intro env polls sOk data hout
    rw [(session_evs env filename polls sOk data).1] at hout
    unfold handle_audio_file_stream
    rcases hv : validate_and_get_streaming_params env filename with ⟨out, vevs⟩
    rw [hv] at hout
    cases out <;> simp_all
  refine ⟨?_, ?_, ?_, hsent⟩ <;> (
    unfold convert_mp3_to_l16
    dsimp only
    by_cases h1 : tenv.procTimeout = true
    · rw [if_pos h1]
      try intro p hp
      simp_all
    · rw [if_neg h1]
      by_cases h2 : tenv.exitCode ≠ 0
      · rw [if_pos h2]
        try intro p hp
        simp_all
      · rw [if_neg h2]
        by_cases h3 : ¬ tenv.outExists = true ∨ tenv.outSize = 0
        · rw [if_pos h3]
          try intro p hp
          simp_all
        · rw [if_neg h3]
          try intro p hp
          simp_all
          all_goals omega)

/-- Witness for C5: a successful encoder run returns the non-empty temp
output path. -/
theorem c5_witness :
    (⟨false, 0, true, 5⟩ : TranscodeEnv).outExists = true
    ∧ 0 < (⟨false, 0, true, 5⟩ : TranscodeEnv).outSize
    ∧ tempPathSegs "a.mp3" (mp3TargetRate "a.mp3")
        = tempPathSegs "a.mp3" (mp3TargetRate "a.mp3") :=
  (c5_transcode_failure_conditions "a.mp3" ⟨false, 0, true, 5⟩).2.2.1
    (tempPathSegs "a.mp3" (mp3TargetRate "a.mp3")) (by decide)

/-- **C6 counterexample.** The claim as stated is false: `.ogg` is a
supported compressed extension, yet a validated `.ogg` request reaches
the streaming state with no transcoder invocation at all. -/
theorem c6_counterexample :
    strLower (pathSuffix (baseName (filePathSegs "x8000.ogg")))
        ∈ supportedFormats
    ∧ strLower (pathSuffix (baseName (filePathSegs "x8000.ogg"))) ≠ ".wav"
    ∧ (validate_and_get_streaming_params
        ⟨[], [["audio_files", "x8000.ogg"]], none, ⟨false, 0, true, 1⟩⟩
        "x8000.ogg").1
        = VOut.ok ⟨320, mkRat 2 100, 8000⟩ (filePathSegs "x8000.ogg")
    ∧ Ev.transcodeCall 8000 ∉ (validate_and_get_streaming_params
        ⟨[], [["audio_files", "x8000.ogg"]], none, ⟨false, 0, true, 1⟩⟩
        "x8000.ogg").2
    ∧ Ev.transcodeCall 16000 ∉ (validate_and_get_streaming_params
        ⟨[], [["audio_files", "x8000.ogg"]], none, ⟨false, 0, true, 1⟩⟩
        "x8000.ogg").2 := by
  decide

/-- **C6 (amended).** Only `.mp3` requests invoke the transcoding
pipeline: a validated `.mp3` request spawns the encoder before the send
loop, with target 16000 Hz exactly when the resource name contains
`"16000"` and 8000 Hz otherwise; any other (supported) extension is
streamed with no transcoder invocation, and no transcoder invocation
ever occurs once streaming has started. -/
theorem c6_amended_only_mp3_transcodes (env : Env) (filename : String) :
    (normSegs (env.cwd ++ filePathSegs filename) ∈ env.fs →
      normSegs (env.cwd ++ audioDirSegs)
        <+: normSegs (env.cwd ++ filePathSegs filename) →
      strLower (pathSuffix (baseName (filePathSegs filename))) = ".mp3" →
      Ev.transcodeCall (if strContains filename "16000" then 16000 else 8000)
        ∈ (validate_and_get_streaming_params env filename).2)
    ∧ (strLower (pathSuffix (baseName (filePathSegs filename))) ≠ ".mp3" →
        ∀ r, Ev.transcodeCall r
          ∉ (validate_and_get_streaming_params env filename).2)
    ∧ (∀ pathSegs cs polls sOk (data : List Nat) r,
        Ev.transcodeCall r ∉ (stream_audio_file pathSegs cs polls sOk data).evs) :=
  ⟨fun hex hpre hsfx => by
      simpa [mp3TargetRate] using validate_mp3_transcode env filename hex hpre hsfx,
   validate_no_transcode_not_mp3 env filename,
   fun pathSegs cs polls sOk data r =>
     stream_audio_file_no_transcode pathSegs cs polls sOk data r⟩

/-- Witness for C6 (amended): a validated `.mp3` request without
`"16000"` in its name invokes the transcoder at 8000 Hz. -/
theorem c6_witness :
    Ev.transcodeCall (if strContains "a.mp3" "16000" then 16000 else 8000)
      ∈ (validate_and_get_streaming_params
          ⟨[], [["audio_files", "a.mp3"]], none, ⟨false, 0, true, 1⟩⟩ "a.mp3").2 :=
  (c6_amended_only_mp3_transcodes
      ⟨[], [["audio_files", "a.mp3"]], none, ⟨false, 0, true, 1⟩⟩ "a.mp3").1
    (by decide) (by decide) (by decide)

/-- **C8.** Each of the four pre-stream/transcode failure kinds closes
the channel with its own fixed (code, reason) pair; the four pairs are
pairwise distinct (the reasons differ; the code is always 1003, never
1000), and on the streaming path no text frame is ever sent for any
purpose — the wire carries binary payloads only or the channel is
closed. -/
theorem c8_close_codes_and_binary_only (env : Env) (filename : String)
    (polls : List (Option Msg)) (sOk : List Bool) (data : List Nat) :
    (∀ s, Ev.sendText s
        ∉ (handle_audio_file_stream env filename polls sOk data).evs)
    ∧ ((handle_audio_file_stream env filename polls sOk data).outcome
          = VOut.notFound →
        Ev.close 1003 "File not found"
          ∈ (handle_audio_file_stream env filename polls sOk data).evs)
    ∧ ((handle_audio_file_stream env filename polls sOk data).outcome
          = VOut.invalidPath →
        Ev.close 1003 "Invalid file path"
          ∈ (handle_audio_file_stream env filename polls sOk data).evs)
    ∧ ((handle_audio_file_stream env filename polls sOk data).outcome
          = VOut.unsupported →
        Ev.close 1003 "Unsupported audio format"
          ∈ (handle_audio_file_stream env filename polls sOk data).evs)
    ∧ ((handle_audio_file_stream env filename polls sOk data).outcome
          = VOut.convFailed →
        Ev.close 1003 "MP3 conversion failed"
          ∈ (handle_audio_file_stream env filename polls sOk data).evs)
    ∧ (∀ c r, Ev.close c r
          ∈ (handle_audio_file_stream env filename polls sOk data).evs →
        c = 1003 ∧ c ≠ 1000)
    ∧ ([("File not found" : String), "Invalid file path",
        "Unsupported audio format", "MP3 conversion failed"].Pairwise
          (fun a b => a ≠ b)) := by
  obtain ⟨hA, hB, h1, h2, h3, h4⟩ := validate_spec env filename
  obtain ⟨hOut, rest, hEvs, hrT, hrC, _⟩ := session_evs env filename polls sOk data
  refine ⟨?_, ?_, ?_, ?_, ?_, ?_, by decide⟩
  · intro s hs
    rw [hEvs] at hs
    rcases List.mem_append.mp hs with h | h
    · exact hA s h
    · exact hrT s h
  · intro ho
    rw [hOut] at ho
    rw [hEvs]
    exact List.mem_append.mpr (Or.inl (h1 ho))
  · intro ho
    rw [hOut] at ho
    rw [hEvs]
    exact List.mem_append.mpr (Or.inl (h2 ho))
  · intro ho
    rw [hOut] at ho
    rw [hEvs]
    exact List.mem_append.mpr (Or.inl (h3 ho))
  · intro ho
    rw [hOut] at ho
    rw [hEvs]
    exact List.mem_append.mpr (Or.inl (h4 ho))
  · intro c r hc
    rw [hEvs] at hc
    rcases List.mem_append.mp hc with h | h
    · have := hB c r h
      exact ⟨this, by omega⟩
    · exact absurd h (hrC c r)

/-- Witness for C8: a request for a missing file closes with
(1003, "File not found") and the session trace carries no text frame. -/
theorem c8_witness :
    Ev.close 1003 "File not found"
      ∈ (handle_audio_file_stream ⟨[], [], none, ⟨false, 0, true, 1⟩⟩
          "a.wav" [] [] []).evs
    ∧ Ev.sendText "oops"
      ∉ (handle_audio_file_stream ⟨[], [], none, ⟨false, 0, true, 1⟩⟩
          "a.wav" [] [] []).evs :=
  ⟨(c8_close_codes_and_binary_only ⟨[], [], none, ⟨false, 0, true, 1⟩⟩
      "a.wav" [] [] []).2.1 (by decide),
   (c8_close_codes_and_binary_only ⟨[], [], none, ⟨false, 0, true, 1⟩⟩
      "a.wav" [] [] []).1 "oops"⟩

/-- **C2 counterexample.** The claim as stated is false: the temp-file
cleanup sits after the `async with` block of `_stream_audio_file`, not
in a `finally`.  In a session that transcoded successfully
(`transcodeCall` was spawned, the outcome carries the converted temp
path) and whose first `send_bytes` raises, the exception escapes to the
caller's `except` clauses and the artifact is never deleted. -/
theorem c2_counterexample :
    Ev.transcodeCall 8000 ∈ (handle_audio_file_stream
        ⟨[], [["audio_files", "song8000.mp3"]], none, ⟨false, 0, true, 5⟩⟩
        "song8000.mp3" [none] [false] [0, 1, 2]).evs
    ∧ (handle_audio_file_stream
        ⟨[], [["audio_files", "song8000.mp3"]], none, ⟨false, 0, true, 5⟩⟩
        "song8000.mp3" [none] [false] [0, 1, 2]).outcome
        = VOut.ok ⟨320, mkRat 2 100, 8000⟩ (tempPathSegs "song8000.mp3" 8000)
    ∧ (handle_audio_file_stream
        ⟨[], [["audio_files", "song8000.mp3"]], none, ⟨false, 0, true, 5⟩⟩
        "song8000.mp3" [none] [false] [0, 1, 2]).streamErr = true
    ∧ (handle_audio_file_stream
        ⟨[], [["audio_files", "song8000.mp3"]], none, ⟨false, 0, true, 5⟩⟩
        "song8000.mp3" [none] [false] [0, 1, 2]).cleaned = false
    ∧ Ev.unlink (tempPathSegs "song8000.mp3" 8000)
        ∉ (handle_audio_file_stream
        ⟨[], [["audio_files", "song8000.mp3"]], none, ⟨false, 0, true, 5⟩⟩
        "song8000.mp3" [none] [false] [0, 1, 2]).evs := by
  have hv : validate_and_get_streaming_params
      ⟨[], [["audio_files", "song8000.mp3"]], none, ⟨false, 0, true, 5⟩⟩
      "song8000.mp3"
      = (VOut.ok ⟨320, mkRat 2 100, 8000⟩ (tempPathSegs "song8000.mp3" 8000),
         [Ev.stat ["audio_files", "song8000.mp3"], Ev.transcodeCall 8000]) := by
    decide
  have hloop : streamLoop 320 [none] [false]
      (([0, 1, 2] : List Nat).drop
        (headerSkip (tempPathSegs "song8000.mp3" 8000)))
      = ⟨[Ev.poll false, Ev.read 3], [], true⟩ := by
    rw [streamLoop]
    decide
  have hsf : stream_audio_file (tempPathSegs "song8000.mp3" 8000) 320
      [none] [false] [0, 1, 2]
      = ⟨Ev.openFile (tempPathSegs "song8000.mp3" 8000)
          :: [Ev.poll false, Ev.read 3], [], false, true⟩ := by
    unfold stream_audio_file
    rw [hloop]
    rfl
  unfold handle_audio_file_stream
  rw [hv]
  dsimp only
  rw [hsf]
  refine ⟨by simp, rfl, rfl, rfl, by simp⟩

/-- **C2 (amended).** The temporary transcoded file is deleted on every
exit path *on which no exception escapes the send loop*: normal source
exhaustion and poll-observed peer disconnect both run the cleanup; but a
mid-stream send error propagates past it and the artifact survives. -/
theorem c2_amended_cleanup_without_exception (env : Env) (filename : String)
    (polls : List (Option Msg)) (sOk : List Bool) (data : List Nat)
    (params : StreamParams) (actualPath : List String)
    (hsfx : strLower (pathSuffix (baseName (filePathSegs filename))) = ".mp3")
    (hout : (handle_audio_file_stream env filename polls sOk data).outcome
      = VOut.ok params actualPath)
    (herr : (handle_audio_file_stream env filename polls sOk data).streamErr
      = false) :
    (handle_audio_file_stream env filename polls sOk data).cleaned = true
    ∧ Ev.unlink actualPath
        ∈ (handle_audio_file_stream env filename polls sOk data).evs := by
  have hv1 : (validate_and_get_streaming_params env filename).1
      = VOut.ok params actualPath := by
    rw [← (session_evs env filename polls sOk data).1]
    exact hout
  have hpath : actualPath = tempPathSegs filename (mp3TargetRate filename) :=
    validate_ok_mp3_path env filename params actualPath hsfx hv1
  rcases hveq : validate_and_get_streaming_params env filename with ⟨out, vevs⟩
  have hout2 : out = VOut.ok params actualPath := by
    rw [hveq] at hv1
    exact hv1
  subst hout2
  unfold handle_audio_file_stream at herr ⊢
  rw [hveq] at herr ⊢
  dsimp only at herr ⊢
  have hclean := stream_audio_file_cleanup actualPath params.chunk_size polls
    sOk data
    (by rw [hpath]; exact isTempArtifact_tempPath filename (mp3TargetRate filename))
    herr
  exact ⟨hclean.1, List.mem_append.mpr (Or.inr hclean.2)⟩

/-- Witness for C2 (amended): a session that transcodes and whose loop
exits on an observed disconnect still deletes the artifact. -/
theorem c2_witness :
    (handle_audio_file_stream
        ⟨[], [["audio_files", "b8000.mp3"]], none, ⟨false, 0, true, 4⟩⟩
        "b8000.mp3" [some Msg.disconnect] [] [1, 2]).cleaned = true
    ∧ Ev.unlink (tempPathSegs "b8000.mp3" 8000)
        ∈ (handle_audio_file_stream
        ⟨[], [["audio_files", "b8000.mp3"]], none, ⟨false, 0, true, 4⟩⟩
        "b8000.mp3" [some Msg.disconnect] [] [1, 2]).evs := by
  have hv : validate_and_get_streaming_params
      ⟨[], [["audio_files", "b8000.mp3"]], none, ⟨false, 0, true, 4⟩⟩
      "b8000.mp3"
      = (VOut.ok ⟨320, mkRat 2 100, 8000⟩ (tempPathSegs "b8000.mp3" 8000),
         [Ev.stat ["audio_files", "b8000.mp3"], Ev.transcodeCall 8000]) := by
    decide
  have hloop : streamLoop 320 [some Msg.disconnect] []
      (([1, 2] : List Nat).drop (headerSkip (tempPathSegs "b8000.mp3" 8000)))
      = ⟨[Ev.poll true], [], false⟩ := by
    rw [streamLoop]
    decide
  have hsf : stream_audio_file (tempPathSegs "b8000.mp3" 8000) 320
      [some Msg.disconnect] [] [1, 2]
      = ⟨Ev.openFile (tempPathSegs "b8000.mp3" 8000) :: [Ev.poll true]
          ++ [Ev.unlink (tempPathSegs "b8000.mp3" 8000)], [], true, false⟩ := by
    unfold stream_audio_file
    rw [hloop]
    rw [if_neg (by decide), if_pos (isTempArtifact_tempPath "b8000.mp3" 8000)]
  have hout : (handle_audio_file_stream
      ⟨[], [["audio_files", "b8000.mp3"]], none, ⟨false, 0, true, 4⟩⟩
      "b8000.mp3" [some Msg.disconnect] [] [1, 2]).outcome
      = VOut.ok ⟨320, mkRat 2 100, 8000⟩ (tempPathSegs "b8000.mp3" 8000) := by
    unfold handle_audio_file_stream
    rw [hv]
  have herr : (handle_audio_file_stream
      ⟨[], [["audio_files", "b8000.mp3"]], none, ⟨false, 0, true, 4⟩⟩
      "b8000.mp3" [some Msg.disconnect] [] [1, 2]).streamErr = false := by
    unfold handle_audio_file_stream
    rw [hv]
    dsimp only
    rw [hsf]
  exact c2_amended_cleanup_without_exception
    ⟨[], [["audio_files", "b8000.mp3"]], none, ⟨false, 0, true, 4⟩⟩
    "b8000.mp3" [some Msg.disconnect] [] [1, 2]
    ⟨320, mkRat 2 100, 8000⟩ (tempPathSegs "b8000.mp3" 8000)
    (by decide) hout herr

end AudioStream

section Scratch
open AudioStream
example : pathSuffix "x.wav" = ".wav" := by decide
example : pathSuffix "x." = "" := by decide
example : pathSuffix ".bashrc" = "" := by decide
example : pathSuffix "a.tar.gz" = ".gz" := by decide
example : strLower ".WAV" = ".wav" := by decide
example : strContains "song16000.mp3" "16000" = true := by decide
example : strContains "song.mp3" "16000" = false := by decide
example : removeMp3 "song.mp3".data = "song".data := by decide
example : parseRel "../x.wav" = ["..", "x.wav"] := by decide
example : parseRel "a/./b//c" = ["a", "b", "c"] := by decide
example : normSegs ["home", "audio_files", "..", "x.wav"] = ["home", "x.wav"] := by decide
example : filePathSegs "../x.wav" = ["audio_files", "..", "x.wav"] := by decide
example : baseName ["audio_files", "t.wav"] = "t.wav" := by decide
example : tempBaseName "song.mp3" 8000 = "converted_song_l16_8000.raw" := by decide
example :
    (validate_and_get_streaming_params ⟨[], [], none, ⟨false, 0, true, 1⟩⟩ "../x.wav").1
      = VOut.notFound := by decide
example :
    (validate_and_get_streaming_params
      ⟨[], [["x.wav"]], none, ⟨false, 0, true, 1⟩⟩ "../x.wav").1
      = VOut.invalidPath := by decide
example :
    (validate_and_get_streaming_params
      ⟨[], [["audio_files", "x.txt"]], none, ⟨false, 0, true, 1⟩⟩ "x.txt").1
      = VOut.unsupported := by decide
example :
    (validate_and_get_streaming_params
      ⟨[], [["audio_files", "a8000.mp3"]], none, ⟨false, 0, true, 9⟩⟩ "a8000.mp3").1
      = VOut.ok ⟨320, mkRat 2 100, 8000⟩ ["tmp", "converted_a8000_l16_8000.raw"] := by decide
end Scratch
